import Mathlib

/-!
Verification of the PromptSafe content script (src/content.js).

The script is a per-page draft-persistence agent: a `DraftManager` singleton
watches a site-specific input surface, debounces input events into saves of
obfuscated text in `chrome.storage.local`, restores drafts into empty
surfaces, and suppresses saves during a 2000 ms submission-guard window.

The embedding below is shallow: JS strings are lists of Unicode code points
(`JSString := List Nat`), the manager's mutable fields form `MState`, the
single-threaded event loop (pending `setTimeout` callbacks, virtual clock,
storage contents, a log of storage calls and of adapter writes) forms
`World`, and every event handler of the script is a pure function
`Env → World → World` where `Env` is a snapshot of the page (hostname,
pathname, href, per-element DOM data, `querySelector` results) at the
moment the handler runs.

The browser builtins used by `Utils.obfuscate` / `Utils.deobfuscate`
(`encodeURIComponent`, `unescape`, `btoa`, `atob`, `escape`,
`decodeURIComponent`) are modelled over code-point lists following their
ECMAScript / WHATWG semantics.
-/

namespace PromptSafe

/-- A JavaScript string, as a list of Unicode code points. -/
abbrev JSString := List Nat

/-- Code points that `String.prototype.trim` removes: WhiteSpace
(TAB, VT, FF, SP, NBSP, BOM, Unicode space separators) and
LineTerminator (LF, CR, LS, PS). -/
def isJsWS (c : Nat) : Bool :=
  decide (c = 9 ∨ c = 10 ∨ c = 11 ∨ c = 12 ∨ c = 13 ∨ c = 32 ∨ c = 160 ∨
    c = 5760 ∨ (8192 ≤ c ∧ c ≤ 8202) ∨ c = 8232 ∨ c = 8233 ∨ c = 8239 ∨
    c = 8287 ∨ c = 12288 ∨ c = 65279)

/-- `text.trim()`: strip leading and trailing JS whitespace. -/
def trimJS (s : JSString) : JSString :=
  ((s.dropWhile isJsWS).reverse.dropWhile isJsWS).reverse

/-- A Unicode scalar value: a code point that is not a lone surrogate.
JS strings restricted to scalar values are exactly those on which
`encodeURIComponent` does not throw. -/
def isScalarB (c : Nat) : Bool :=
  decide (c < 1114112 ∧ ¬(55296 ≤ c ∧ c < 57344))

/-- UTF-8 encoding of one scalar value, as byte values. -/
def utf8Char (c : Nat) : List Nat :=
  if c < 128 then [c]
  else if c < 2048 then [192 + c / 64, 128 + c % 64]
  else if c < 65536 then [224 + c / 4096, 128 + c / 64 % 64, 128 + c % 64]
  else [240 + c / 262144, 128 + c / 4096 % 64, 128 + c / 64 % 64, 128 + c % 64]

/-- UTF-8 encoding of a whole string. -/
def utf8Str : JSString → List Nat
  | [] => []
  | c :: r => utf8Char c ++ utf8Str r

/-- Is `b` a UTF-8 continuation byte? -/
def contB (b : Nat) : Bool := decide (128 ≤ b ∧ b < 192)

/-- Decode one scalar value from the front of a UTF-8 byte list, returning
it with the remaining bytes; rejects truncated sequences, stray
continuation bytes, overlong forms, surrogates and out-of-range values. -/
def utf8DecodeChar : List Nat → Option (Nat × List Nat)
  | [] => none
  | b :: r =>
    if b < 128 then some (b, r)
    else if b < 194 then none
    else if b < 224 then
      match r with
      | b2 :: r2 =>
        if contB b2 then some ((b - 192) * 64 + (b2 - 128), r2) else none
      | [] => none
    else if b < 240 then
      match r with
      | b2 :: b3 :: r2 =>
        if contB b2 && contB b3 then
          let c := (b - 224) * 4096 + (b2 - 128) * 64 + (b3 - 128)
          if 2048 ≤ c ∧ ¬(55296 ≤ c ∧ c < 57344) then some (c, r2) else none
        else none
      | _ => none
    else if b < 245 then
      match r with
      | b2 :: b3 :: b4 :: r2 =>
        if contB b2 && contB b3 && contB b4 then
          let c := (b - 240) * 262144 + (b2 - 128) * 4096 + (b3 - 128) * 64 + (b4 - 128)
          if 65536 ≤ c ∧ c < 1114112 then some (c, r2) else none
        else none
      | _ => none
    else none

/-- Strict UTF-8 decoding of a whole byte list, as performed by
`decodeURIComponent` on percent-encoded bytes: decode scalar values one
at a time until the input is exhausted; any malformed sequence fails the
whole decode. -/
def utf8Decode (l : List Nat) : Option (List Nat) :=
  match h : utf8DecodeChar l with
  | none => if l = [] then some [] else none
  | some (c, rest) => (utf8Decode rest).map (c :: ·)
termination_by l.length
decreasing_by
  rcases l with _ | ⟨b, r⟩
  · simp [utf8DecodeChar] at h
  · simp only [utf8DecodeChar] at h
    split_ifs at h
    · injection h with h2
      injection h2 with h3 h4
      simp [← h4]
    · rcases r with _ | ⟨b2, r2⟩
      · simp at h
      · simp only [Option.ite_none_right_eq_some, Option.some.injEq,
          Prod.mk.injEq] at h
        obtain ⟨hb, hceq, hrest⟩ := h
        simp only [← hrest, List.length_cons]
        omega
    · rcases r with _ | ⟨b2, _ | ⟨b3, r2⟩⟩
      · simp at h
      · simp at h
      · simp only [Option.ite_none_right_eq_some, Option.some.injEq,
          Prod.mk.injEq] at h
        obtain ⟨hb, hchk, hceq, hrest⟩ := h
        simp only [← hrest, List.length_cons]
        omega
    · rcases r with _ | ⟨b2, _ | ⟨b3, _ | ⟨b4, r2⟩⟩⟩
      · simp at h
      · simp at h
      · simp at h
      · simp only [Option.ite_none_right_eq_some, Option.some.injEq,
          Prod.mk.injEq] at h
        obtain ⟨hb, hchk, hceq, hrest⟩ := h
        simp only [← hrest, List.length_cons]
        omega

/-- Uppercase hexadecimal digit character for a value below 16. -/
def hexUDigit (n : Nat) : Nat := if n < 10 then 48 + n else 55 + n

/-- Is `c` a hexadecimal digit character (either case)? -/
def isHexDigit (c : Nat) : Bool :=
  decide ((48 ≤ c ∧ c ≤ 57) ∨ (65 ≤ c ∧ c ≤ 70) ∨ (97 ≤ c ∧ c ≤ 102))

/-- Value of a hexadecimal digit character. -/
def hexVal (c : Nat) : Nat :=
  if c ≤ 57 then c - 48 else if c ≤ 70 then c - 55 else c - 87

/-- The three-character sequence percent, two uppercase hex digits for a byte. -/
def percentByte (b : Nat) : List Nat := [37, hexUDigit (b / 16), hexUDigit (b % 16)]

/-- Characters `encodeURIComponent` leaves unescaped:
alphanumerics and minus, underscore, dot, bang, tilde, star, quote, parens. -/
def isUriUnreserved (c : Nat) : Bool :=
  decide ((48 ≤ c ∧ c ≤ 57) ∨ (65 ≤ c ∧ c ≤ 90) ∨ (97 ≤ c ∧ c ≤ 122) ∨
    c = 45 ∨ c = 95 ∨ c = 46 ∨ c = 33 ∨ c = 126 ∨ c = 42 ∨ c = 39 ∨ c = 40 ∨ c = 41)

/-- `encodeURIComponent` output for one scalar value. -/
def encChar (c : Nat) : List Nat :=
  if isUriUnreserved c then [c] else
    match utf8Char c with
    | [] => []
    | [b1] => percentByte b1
    | [b1, b2] => percentByte b1 ++ percentByte b2
    | [b1, b2, b3] => percentByte b1 ++ percentByte b2 ++ percentByte b3
    | b1 :: b2 :: b3 :: b4 :: _ =>
        percentByte b1 ++ percentByte b2 ++ percentByte b3 ++ percentByte b4

/-- Percent-encoded form of a whole string. -/
def encStr : JSString → List Nat
  | [] => []
  | c :: r => encChar c ++ encStr r

/-- `encodeURIComponent`: percent-encodes the UTF-8 bytes of every character
outside the unreserved set; throws a URIError (modelled as `none`) exactly
when the string contains a lone surrogate. -/
def encodeURIComponent (s : JSString) : Option (List Nat) :=
  if s.all isScalarB then some (encStr s) else none

/-- `unescape` (ECMAScript B.2.1.2): replaces percent-u followed by four hex
digits with that code unit, percent followed by two hex digits with that
byte value, and leaves every other character (including an unparseable
percent) unchanged. Never throws. -/
def unescape : List Nat → List Nat
  | [] => []
  | c :: rest =>
    if c = 37 then
      match rest with
      | u :: a :: b :: c2 :: d :: rest2 =>
        if u = 117 ∧ isHexDigit a ∧ isHexDigit b ∧ isHexDigit c2 ∧ isHexDigit d then
          (hexVal a * 4096 + hexVal b * 256 + hexVal c2 * 16 + hexVal d) :: unescape rest2
        else if isHexDigit u ∧ isHexDigit a then
          (hexVal u * 16 + hexVal a) :: unescape (b :: c2 :: d :: rest2)
        else c :: unescape (u :: a :: b :: c2 :: d :: rest2)
      | a :: b :: rest2 =>
        if isHexDigit a ∧ isHexDigit b then
          (hexVal a * 16 + hexVal b) :: unescape rest2
        else c :: unescape (a :: b :: rest2)
      | a :: rest2 => c :: unescape (a :: rest2)
      | [] => [c]
    else c :: unescape rest
termination_by s => s.length
decreasing_by all_goals simp_arith [List.length]

/-- The base64 alphabet character for a 6-bit value. -/
def b64Char (n : Nat) : Nat :=
  if n < 26 then 65 + n
  else if n < 52 then 97 + (n - 26)
  else if n < 62 then 48 + (n - 52)
  else if n = 62 then 43 else 47

/-- Reverse lookup in the base64 alphabet. -/
def b64Val (c : Nat) : Option Nat :=
  if 65 ≤ c ∧ c ≤ 90 then some (c - 65)
  else if 97 ≤ c ∧ c ≤ 122 then some (c - 97 + 26)
  else if 48 ≤ c ∧ c ≤ 57 then some (c - 48 + 52)
  else if c = 43 then some 62
  else if c = 47 then some 63
  else none

/-- The base64 encoding of a byte list (groups of three bytes become four
alphabet characters; a final group of one or two bytes is padded with
one or two `=` characters, code 61). -/
def btoaEncode : List Nat → List Nat
  | [] => []
  | [b1] => [b64Char (b1 / 4), b64Char (b1 % 4 * 16), 61, 61]
  | [b1, b2] => [b64Char (b1 / 4), b64Char (b1 % 4 * 16 + b2 / 16), b64Char (b2 % 16 * 4), 61]
  | b1 :: b2 :: b3 :: rest =>
    b64Char (b1 / 4) :: b64Char (b1 % 4 * 16 + b2 / 16) ::
      b64Char (b2 % 16 * 4 + b3 / 64) :: b64Char (b3 % 64) :: btoaEncode rest

/-- `btoa`: throws (modelled as `none`) when some character exceeds 255,
otherwise base64-encodes the characters as bytes. -/
def btoa (s : List Nat) : Option (List Nat) :=
  if s.all (fun b => decide (b < 256)) then some (btoaEncode s) else none

/-- ASCII whitespace, removed by forgiving-base64 decoding. -/
def isAsciiWS (c : Nat) : Bool := decide (c = 9 ∨ c = 10 ∨ c = 12 ∨ c = 13 ∨ c = 32)

/-- Drop up to `n` leading `=` characters (code 61). -/
def dropEq : Nat → List Nat → List Nat
  | _, [] => []
  | 0, l => l
  | n + 1, a :: l => if a = 61 then dropEq n l else a :: l

/-- Remove one or two trailing `=` padding characters. -/
def stripPad (t : List Nat) : List Nat :=
  (dropEq 2 t.reverse).reverse

/-- Decode a list of 6-bit values into bytes (a final group of two or three
values yields one or two bytes, discarding the extra low bits). -/
def atobDecode : List Nat → List Nat
  | a :: b :: c :: d :: rest =>
    (a * 4 + b / 16) :: (b % 16 * 16 + c / 4) :: (c % 4 * 64 + d) :: atobDecode rest
  | [a, b] => [a * 4 + b / 16]
  | [a, b, c] => [a * 4 + b / 16, b % 16 * 16 + c / 4]
  | _ => []

/-- `atob` (WHATWG forgiving-base64 decode): strip ASCII whitespace; if the
length is a multiple of four, strip up to two trailing `=`; fail if the
remaining length is 1 mod 4 or any character is outside the alphabet;
otherwise decode 6-bit groups into bytes. -/
def atob (s : List Nat) : Option (List Nat) :=
  let t := s.filter (fun c => !isAsciiWS c)
  let t2 := if t.length % 4 = 0 then stripPad t else t
  if t2.length % 4 = 1 then none
  else if t2.all (fun c => (b64Val c).isSome) then
    some (atobDecode (t2.map (fun c => (b64Val c).getD 0)))
  else none

/-- The 6-bit groups of a byte list (without padding): proof helper
describing the digit values `btoaEncode` emits. -/
def sixVals : List Nat → List Nat
  | [] => []
  | [b1] => [b1 / 4, b1 % 4 * 16]
  | [b1, b2] => [b1 / 4, b1 % 4 * 16 + b2 / 16, b2 % 16 * 4]
  | b1 :: b2 :: b3 :: rest =>
    b1 / 4 :: (b1 % 4 * 16 + b2 / 16) :: (b2 % 16 * 4 + b3 / 64) :: b3 % 64 :: sixVals rest

/-- The padding characters `btoaEncode` appends: proof helper. -/
def padList : List Nat → List Nat
  | [] => []
  | [_] => [61, 61]
  | [_, _] => [61]
  | _ :: _ :: _ :: rest => padList rest

/-- Characters `escape` (ECMAScript B.2.1.1) leaves unescaped:
alphanumerics and at-sign, star, underscore, plus, minus, dot, slash. -/
def escapeKeep (c : Nat) : Bool :=
  decide ((48 ≤ c ∧ c ≤ 57) ∨ (65 ≤ c ∧ c ≤ 90) ∨ (97 ≤ c ∧ c ≤ 122) ∨
    c = 64 ∨ c = 42 ∨ c = 95 ∨ c = 43 ∨ c = 45 ∨ c = 46 ∨ c = 47)

/-- `escape`: kept characters pass through, other characters below 256
become percent plus two hex digits, and larger code units become
percent-u plus four hex digits. Never throws. -/
def escape : List Nat → List Nat
  | [] => []
  | c :: r =>
    (if escapeKeep c then [c]
     else if c < 256 then percentByte c
     else [37, 117, hexUDigit (c / 4096 % 16), hexUDigit (c / 256 % 16),
           hexUDigit (c / 16 % 16), hexUDigit (c % 16)]) ++ escape r

/-- The byte stream denoted by a percent-encoded string: percent plus two
hex digits is that byte, any other character stands for its UTF-8 bytes;
a percent not followed by two hex digits is a URIError (`none`). -/
def uriBytes : List Nat → Option (List Nat)
  | [] => some []
  | c :: rest =>
    if c = 37 then
      match rest with
      | a :: b :: rest2 =>
        if isHexDigit a ∧ isHexDigit b then
          (uriBytes rest2).map ((hexVal a * 16 + hexVal b) :: ·)
        else none
      | _ => none
    else (uriBytes rest).map (utf8Char c ++ ·)

/-- `decodeURIComponent`: recover the byte stream of the percent-encoded
input and UTF-8 decode it; a URIError (malformed percent escape or
malformed UTF-8) is modelled as `none`. -/
def decodeURIComponent (s : List Nat) : Option (List Nat) :=
  (uriBytes s).bind utf8Decode

/-- `Utils.obfuscate`: `btoa(unescape(encodeURIComponent(text)))`, returning
the input unchanged if an exception is thrown. -/
def obfuscate (text : JSString) : JSString :=
  match encodeURIComponent text with
  | none => text
  | some e =>
    match btoa (unescape e) with
    | none => text
    | some r => r

/-- `Utils.deobfuscate`: `decodeURIComponent(escape(atob(encoded)))`,
returning the empty string if an exception is thrown. -/
def deobfuscate (encoded : JSString) : JSString :=
  match atob encoded with
  | none => []
  | some bytes =>
    match decodeURIComponent (escape bytes) with
    | none => []
    | some r => r

/-! ## The DraftManager state machine -/

/-- `CONFIG.DEBOUNCE_MS`. -/
def DEBOUNCE_MS : Nat := 500

/-- The fixed delay of the document-click heuristic. -/
def CLICK_MS : Nat := 500

/-- The fixed delay after which the submission guard is released. -/
def GUARD_MS : Nat := 2000

/-- `CONFIG.STORAGE_PREFIX`, the characters of the text draft underscore. -/
def storagePref : JSString := [100, 114, 97, 102, 116, 95]

/-- The characters of the key name Enter. -/
def enterStr : JSString := [69, 110, 116, 101, 114]

/-- The characters of the tag name TEXTAREA. -/
def tagTextarea : JSString := [84, 69, 88, 84, 65, 82, 69, 65]

/-- The characters of the tag name INPUT. -/
def tagInput : JSString := [73, 78, 80, 85, 84]

/-- Hostname chatgpt.com. -/
def hostChatgpt : JSString := [99, 104, 97, 116, 103, 112, 116, 46, 99, 111, 109]

/-- Hostname gemini.google.com. -/
def hostGemini : JSString :=
  [103, 101, 109, 105, 110, 105, 46, 103, 111, 111, 103, 108, 101, 46, 99, 111, 109]

/-- Hostname www.perplexity.ai. -/
def hostPerplexity : JSString :=
  [119, 119, 119, 46, 112, 101, 114, 112, 108, 101, 120, 105, 116, 121, 46, 97, 105]

/-- Selector hash prompt-textarea. -/
def selChatgpt : JSString :=
  [35, 112, 114, 111, 109, 112, 116, 45, 116, 101, 120, 116, 97, 114, 101, 97]

/-- Selector list: dot ql-editor, textarea, bracket contenteditable equals
quoted true. -/
def selGemini : JSString :=
  [46, 113, 108, 45, 101, 100, 105, 116, 111, 114, 44, 32, 116, 101, 120, 116, 97, 114,
   101, 97, 44, 32, 91, 99, 111, 110, 116, 101, 110, 116, 101, 100, 105, 116, 97, 98,
   108, 101, 61, 39, 116, 114, 117, 101, 39, 93]

/-- Selector textarea. -/
def selPerplexity : JSString := [116, 101, 120, 116, 97, 114, 101, 97]

/-- Association-list lookup, first match wins. -/
def lookupA {β : Type} (s : List (JSString × β)) (k : JSString) : Option β :=
  match s with
  | [] => none
  | (k2, v) :: r => if k2 = k then some v else lookupA r k

/-- The per-site selector table of the DraftManager constructor. -/
def selectors : List (JSString × JSString) :=
  [(hostChatgpt, selChatgpt), (hostGemini, selGemini), (hostPerplexity, selPerplexity)]

/-- The observable data of one DOM element: tag name, whether its
contenteditable attribute is the string true, whether its class list
contains ql-editor, its value property and its innerText. -/
structure ElemInfo where
  tag : JSString
  ceAttr : Bool
  ql : Bool
  value : JSString
  innerText : JSString
deriving DecidableEq

/-- The two adapter variants of the script. -/
inductive AdapterKind
  | textArea
  | contentEditable
deriving DecidableEq

/-- An adapter instance: the element it wraps plus its variant. -/
structure Adapter where
  el : Nat
  kind : AdapterKind
deriving DecidableEq

/-- `AdapterFactory.create`: TEXTAREA or INPUT tags get the textarea
variant; elements with contenteditable true or the ql-editor class get
the contenteditable variant; anything else gets no adapter. -/
def createAdapter (info : ElemInfo) : Option AdapterKind :=
  if info.tag = tagTextarea ∨ info.tag = tagInput then some .textArea
  else if info.ceAttr = true ∨ info.ql = true then some .contentEditable
  else none

/-- A snapshot of the page at the moment a handler runs: location data,
per-element DOM state, and the result of querySelector per selector. -/
structure Env where
  hostname : JSString
  pathname : JSString
  href : JSString
  info : Nat → ElemInfo
  query : JSString → Option Nat

/-- `adapter.getValue()`: the value property for the textarea variant, the
innerText for the contenteditable variant. -/
def getValue (env : Env) (a : Adapter) : JSString :=
  match a.kind with
  | .textArea => (env.info a.el).value
  | .contentEditable => (env.info a.el).innerText

/-- The DOM state after `adapter.setValue(text)` (before the synthetic
input event): the variant-specific text of the element is replaced. -/
def envWrite (env : Env) (a : Adapter) (text : JSString) : Env :=
  { env with
    info := fun n =>
      if n = a.el then
        match a.kind with
        | .textArea => { env.info a.el with value := text }
        | .contentEditable => { env.info a.el with innerText := text }
      else env.info n }

/-- The two listener kinds `BaseAdapter` registers. -/
inductive BindKind
  | input
  | keydown
deriving DecidableEq

/-- A pending `setTimeout` callback of the script. -/
inductive Task
  | debounce (text : JSString)
  | guardRelease
  | clickSettle
deriving DecidableEq

/-- A pending timer: its `setTimeout` id, absolute fire time, callback. -/
structure Timer where
  id : Nat
  fireAt : Nat
  task : Task
deriving DecidableEq

/-- A `chrome.storage.local` call issued by the script. -/
inductive StoreOp
  | get (k : JSString)
  | set (k v : JSString)
  | remove (k : JSString)
deriving DecidableEq

/-- The mutable fields of the DraftManager singleton, plus the closure
variable lastUrl of observeURL and the set of listener registrations the
adapters have made. -/
structure MState where
  currentInput : Option Nat
  adapter : Option Adapter
  typingTimer : Option Nat
  isSubmitting : Bool
  lastUrl : JSString
  bindings : List (Nat × BindKind)
deriving DecidableEq

/-- The whole single-threaded world: manager state, pending timers,
virtual clock, timer-id counter, storage contents, and logs of every
storage call and every adapter write. -/
structure World where
  st : MState
  timers : List Timer
  now : Nat
  nextId : Nat
  store : List (JSString × JSString)
  ops : List StoreOp
  writes : List (Nat × JSString)
deriving DecidableEq

/-- `chrome.storage.local.set` on the store contents: replace any entry for
the key and append the new one. -/
def setA (s : List (JSString × JSString)) (k v : JSString) : List (JSString × JSString) :=
  s.filter (fun p => p.1 ≠ k) ++ [(k, v)]

/-- `chrome.storage.local.remove` on the store contents. -/
def removeA (s : List (JSString × JSString)) (k : JSString) : List (JSString × JSString) :=
  s.filter (fun p => p.1 ≠ k)

/-- Issue a storage get: returns the stored value and logs the call. -/
def storeGetW (k : JSString) (w : World) : Option JSString × World :=
  (lookupA w.store k, { w with ops := w.ops ++ [.get k] })

/-- Issue a storage set: updates the contents and logs the call. -/
def storeSetW (k v : JSString) (w : World) : World :=
  { w with store := setA w.store k v, ops := w.ops ++ [.set k v] }

/-- Issue a storage remove: updates the contents and logs the call. -/
def storeRemoveW (k : JSString) (w : World) : World :=
  { w with store := removeA w.store k, ops := w.ops ++ [.remove k] }

/-- `setTimeout(task, delay)`: append a pending timer with a fresh id. -/
def setTimeoutW (task : Task) (delay : Nat) (w : World) : World :=
  { w with timers := w.timers ++ [⟨w.nextId, w.now + delay, task⟩],
           nextId := w.nextId + 1 }

/-- `clearTimeout(id)`: drop the pending timer with that id; a null or
stale id clears nothing. -/
def clearTimeoutW (i : Option Nat) (w : World) : World :=
  match i with
  | none => w
  | some tid => { w with timers := w.timers.filter (fun t => t.id ≠ tid) }

/-- `Utils.getStorageKey()`: the storage prefix followed by hostname and
pathname of the current location. -/
def getStorageKey (env : Env) : JSString :=
  storagePref ++ env.hostname ++ env.pathname

/-- `DraftManager.handleSendSuccess`: remove the record for the current key. -/
def handleSendSuccess (env : Env) (w : World) : World :=
  storeRemoveW (getStorageKey env) w

/-- `DraftManager.saveDraft(text)`: remove the record when the text is
falsy or trims to empty, otherwise store the obfuscated text. -/
def saveDraft (env : Env) (text : JSString) (w : World) : World :=
  if text = [] ∨ trimJS text = [] then storeRemoveW (getStorageKey env) w
  else storeSetW (getStorageKey env) (obfuscate text) w

/-- `DraftManager.handleInput`: return immediately under the submission
guard; otherwise cancel the typing timer, read the adapter text, and arm
a fresh debounce timer remembering its id. Reading the text of a null
adapter throws a TypeError, which aborts the handler after the
clearTimeout. -/
def handleInput (env : Env) (w : World) : World :=
  if w.st.isSubmitting then w
  else
    let w1 := clearTimeoutW w.st.typingTimer w
    match w1.st.adapter with
    | none => w1
    | some a =>
      let text := getValue env a
      let w2 := setTimeoutW (.debounce text) DEBOUNCE_MS w1
      { w2 with st := { w2.st with typingTimer := some w1.nextId } }

/-- A keyboard event as the handler sees it. -/
structure KeyEvent where
  key : JSString
  shiftKey : Bool
deriving DecidableEq

/-- `DraftManager.handleKeydown(e)`: on Enter without shift, set the
submission guard, cancel any pending debounce save, remove the stored
record for the current key, and schedule the guard release. -/
def handleKeydown (env : Env) (e : KeyEvent) (w : World) : World :=
  if e.key = enterStr ∧ e.shiftKey = false then
    let w1 := { w with st := { w.st with isSubmitting := true } }
    let w2 := clearTimeoutW w1.st.typingTimer w1
    let w3 := handleSendSuccess env w2
    setTimeoutW .guardRelease GUARD_MS w3
  else w

/-- How many listeners of the given kind are registered on the element. -/
def countB (bs : List (Nat × BindKind)) (el : Nat) (k : BindKind) : Nat :=
  (bs.filter (fun p => p.1 = el ∧ p.2 = k)).length

/-- Run `handleInput` the given number of times (once per registered
listener that a dispatched input event reaches). -/
def iterateHandleInput (env : Env) : Nat → World → World
  | 0, w => w
  | n + 1, w => iterateHandleInput env n (handleInput env w)

/-- `adapter.setValue(text)`: write the element's text, log the write, and
dispatch a synthetic input event, which synchronously runs `handleInput`
once per input listener registered on the element. Returns the updated
page snapshot alongside the world. -/
def setValueW (env : Env) (a : Adapter) (text : JSString) (w : World) : Env × World :=
  let env2 := envWrite env a text
  let w1 := { w with writes := w.writes ++ [(a.el, text)] }
  (env2, iterateHandleInput env2 (countB w1.st.bindings a.el .input) w1)

/-- `DraftManager.restoreDraft`: read the record for the current key; when
a truthy value exists and an adapter is bound and the surface text is
falsy or trims to empty, deobfuscate and, if the result is truthy, write
it into the surface (and show a toast). -/
def restoreDraft (env : Env) (w : World) : World :=
  let r := storeGetW (getStorageKey env) w
  let w1 := r.2
  match r.1 with
  | none => w1
  | some v =>
    match w1.st.adapter with
    | none => w1
    | some a =>
      if v = [] then w1
      else
        let currentText := getValue env a
        if currentText = [] ∨ trimJS currentText = [] then
          let text := deobfuscate v
          if text = [] then w1
          else (setValueW env a text w1).2
        else w1

/-- The MutationObserver callback of `DraftManager.observeDOM`: look up the
selector for the hostname, query the document, and if a box exists that
differs from the tracked one, replace the tracked element, resolve a new
adapter, and on success restore the draft and bind input and keydown
listeners through the new adapter. -/
def mutationStep (env : Env) (w : World) : World :=
  match lookupA selectors env.hostname with
  | none => w
  | some sel =>
    match env.query sel with
    | none => w
    | some box =>
      if w.st.currentInput = some box then w
      else
        let ad := (createAdapter (env.info box)).map (fun k => Adapter.mk box k)
        let w1 := { w with st := { w.st with currentInput := some box, adapter := ad } }
        match ad with
        | none => w1
        | some a =>
          let w2 := restoreDraft env w1
          { w2 with st := { w2.st with
              bindings := w2.st.bindings ++ [(a.el, .input), (a.el, .keydown)] } }

/-- The MutationObserver callback of `DraftManager.observeURL`: when the
href differs from the remembered one, remember it and null the tracked
element so the DOM observer re-acquires; no storage call is made. -/
def urlStep (env : Env) (w : World) : World :=
  if env.href ≠ w.st.lastUrl then
    { w with st := { w.st with lastUrl := env.href, currentInput := none } }
  else w

/-- The capture-phase document click listener: schedule the click-settle
check after the fixed delay. -/
def clickStep (_env : Env) (w : World) : World :=
  setTimeoutW .clickSettle CLICK_MS w

/-- Run one fired timer callback. The debounce callback saves the captured
text unless the submission guard is active; the guard-release callback
clears the guard; the click-settle callback re-reads the surface and
treats a falsy or whitespace-only text as an inferred submission. -/
def runTask (env : Env) (t : Task) (w : World) : World :=
  match t with
  | .debounce text => if w.st.isSubmitting = false then saveDraft env text w else w
  | .guardRelease => { w with st := { w.st with isSubmitting := false } }
  | .clickSettle =>
    match w.st.adapter with
    | none => w
    | some a =>
      let text := getValue env a
      if text = [] ∨ trimJS text = [] then handleSendSuccess env w else w

/-- Earliest-deadline order on pending timers, ties by id (creation order),
matching the dispatch order of the single-threaded event loop. -/
def earlier (t1 t2 : Timer) : Bool :=
  decide (t1.fireAt < t2.fireAt ∨ (t1.fireAt = t2.fireAt ∧ t1.id < t2.id))

/-- The next timer the event loop will fire, if any. -/
def pickNext : List Timer → Option Timer
  | [] => none
  | t :: ts =>
    match pickNext ts with
    | none => some t
    | some u => if earlier u t then some u else some t

/-- One event-loop step: fire the next pending timer, advancing the clock
and removing it from the pending set, then run its callback. -/
def stepW (env : Env) (w : World) : World :=
  match pickNext w.timers with
  | none => w
  | some t =>
    runTask env t.task
      { w with timers := w.timers.filter (fun u => u.id ≠ t.id),
               now := max w.now t.fireAt }

/-- Run the event loop for the given number of steps with no further user
events. -/
def runW (env : Env) : Nat → World → World
  | 0, w => w
  | n + 1, w => runW env n (stepW env w)

/-- Dispatch a user input event on an element: each input listener
registered on it runs `handleInput`. -/
def dispatchInput (env : Env) (el : Nat) (w : World) : World :=
  iterateHandleInput env (countB w.st.bindings el .input) w

/-! ## Concrete fixtures for witnesses and counterexamples -/

/-- A pristine world: fresh manager, no timers, empty store. -/
def w0 : World :=
  { st := { currentInput := none, adapter := none, typingTimer := none,
            isSubmitting := false, lastUrl := [104, 49], bindings := [] },
    timers := [], now := 0, nextId := 0, store := [], ops := [], writes := [] }

/-- A world tracking element 1 through a textarea adapter. -/
def wTrack : World :=
  { w0 with st := { w0.st with
      currentInput := some 1,
      adapter := some ⟨1, .textArea⟩,
      bindings := [(1, .input), (1, .keydown)] } }

/-- A tracking world whose submission guard is active. -/
def wGuard : World :=
  { wTrack with st := { wTrack.st with isSubmitting := true } }

/-- A tracking world with a pending debounce save. -/
def wPend : World :=
  { wTrack with timers := [⟨0, 777, .debounce [120]⟩],
                st := { wTrack.st with typingTimer := some 0 },
                nextId := 1 }

/-- A page snapshot on the chatgpt host: element 1 is a textarea holding
the two characters h i, and every selector query returns element 1. -/
def envHi : Env :=
  { hostname := hostChatgpt, pathname := [47, 99], href := [104, 49],
    info := fun _ => ⟨tagTextarea, false, false, [104, 105], []⟩,
    query := fun _ => some 1 }

/-- Like `envHi` but the textarea is empty. -/
def envEmpty : Env :=
  { envHi with info := fun _ => ⟨tagTextarea, false, false, [], []⟩ }

/-- Like `envEmpty` but with a different pathname and href, and queries
resolving to element 2 (the re-rendered route-scoped surface). -/
def envRoute2 : Env :=
  { envEmpty with
    pathname := [47, 100],
    href := [104, 50],
    query := fun _ => some 2 }

/-- A world holding a stored draft record for the `envEmpty` page. -/
def wStored : World :=
  { wTrack with store := [(getStorageKey envEmpty, obfuscate [119, 122])] }

/-- Is this task a debounce save? -/
def isDebounceT : Task → Bool
  | .debounce _ => true
  | _ => false

/-- Is this storage call a set? -/
def isSetOp : StoreOp → Bool
  | .set _ _ => true
  | _ => false

/-- The set calls of a storage-call log. -/
def setsOf (ops : List StoreOp) : List StoreOp := ops.filter isSetOp

/-! ## Frame lemmas -/

theorem handleInput_frame (env : Env) (w : World) :
    (handleInput env w).st.isSubmitting = w.st.isSubmitting ∧
    (handleInput env w).st.adapter = w.st.adapter ∧
    (handleInput env w).st.currentInput = w.st.currentInput ∧
    (handleInput env w).st.bindings = w.st.bindings ∧
    (handleInput env w).ops = w.ops ∧
    (handleInput env w).store = w.store := by
  unfold handleInput clearTimeoutW setTimeoutW
  cases w.st.typingTimer <;> cases h : w.st.adapter <;>
    simp_all <;> split <;> simp_all

theorem iterateHandleInput_frame (env : Env) (n : Nat) (w : World) :
    (iterateHandleInput env n w).st.isSubmitting = w.st.isSubmitting ∧
    (iterateHandleInput env n w).st.adapter = w.st.adapter ∧
    (iterateHandleInput env n w).st.currentInput = w.st.currentInput ∧
    (iterateHandleInput env n w).st.bindings = w.st.bindings ∧
    (iterateHandleInput env n w).ops = w.ops ∧
    (iterateHandleInput env n w).store = w.store := by
  induction n generalizing w with
  | zero => exact ⟨rfl, rfl, rfl, rfl, rfl, rfl⟩
  | succ n ih =>
    have h1 := handleInput_frame env w
    have h2 := ih (handleInput env w)
    simp only [iterateHandleInput]
    exact ⟨h2.1.trans h1.1, h2.2.1.trans h1.2.1, h2.2.2.1.trans h1.2.2.1,
      h2.2.2.2.1.trans h1.2.2.2.1, h2.2.2.2.2.1.trans h1.2.2.2.2.1,
      h2.2.2.2.2.2.trans h1.2.2.2.2.2⟩

theorem restoreDraft_frame (env : Env) (w : World) :
    (restoreDraft env w).store = w.store ∧
    (restoreDraft env w).ops = w.ops ++ [.get (getStorageKey env)] ∧
    (restoreDraft env w).st.isSubmitting = w.st.isSubmitting ∧
    (restoreDraft env w).st.adapter = w.st.adapter ∧
    (restoreDraft env w).st.currentInput = w.st.currentInput ∧
    (restoreDraft env w).st.bindings = w.st.bindings := by
  unfold restoreDraft storeGetW setValueW
  cases hv : lookupA w.store (getStorageKey env) with
  | none => simp
  | some v =>
    cases h : w.st.adapter with
    | none => simp [h]
    | some a =>
      simp only [h]
      split
      · simp [h]
      · split
        · split
          · simp [h]
          · simp [h, iterateHandleInput_frame]
        · simp [h]

/-! ## Claim theorems -/

/-- C10: a restoration attempt only reads the store: in every branch
(restore performed, surface non-empty, no record, decode failure) it
issues exactly one get and no set or remove, so the store contents are
unchanged by every restoration attempt. -/
theorem c10_restore_only_reads (env : Env) (w : World) :
    (restoreDraft env w).store = w.store ∧
    (restoreDraft env w).ops = w.ops ++ [StoreOp.get (getStorageKey env)] :=
  ⟨(restoreDraft_frame env w).1, (restoreDraft_frame env w).2.1⟩

/-- C2: whenever the bound surface's text trims to something non-empty at
the moment a restoration attempt runs, the adapter write operation is not
invoked: the log of writes is unchanged by the attempt. -/
theorem c2_restore_never_overwrites (env : Env) (w : World) (a : Adapter)
    (ha : w.st.adapter = some a) (ht : trimJS (getValue env a) ≠ []) :
    (restoreDraft env w).writes = w.writes := by
  have hcond : ¬(getValue env a = [] ∨ trimJS (getValue env a) = []) := by
    rintro (hc | hc)
    · exact ht (by rw [hc]; rfl)
    · exact ht hc
  unfold restoreDraft storeGetW
  cases hv : lookupA w.store (getStorageKey env) with
  | none => simp
  | some v =>
    simp only [ha]
    split
    · simp
    · simp [hcond]

/-- C2 witness: the fixture page holds a draft record and a surface with
non-blank text; the restoration attempt leaves the write log unchanged. -/
theorem c2_restore_never_overwrites_witness :
    wStored.st.adapter = some ⟨1, .textArea⟩ ∧
    trimJS (getValue envHi ⟨1, .textArea⟩) ≠ [] ∧
    (restoreDraft envHi wStored).writes = wStored.writes :=
  ⟨rfl, by decide,
    c2_restore_never_overwrites envHi wStored ⟨1, .textArea⟩ rfl (by decide)⟩

/-- C3: the save operation writes the obfuscated text under the key made
of the storage prefix, hostname and pathname exactly when the text trims
to something non-empty, and otherwise removes the record for that key. -/
theorem c3_save_semantics (env : Env) (text : JSString) (w : World) :
    (trimJS text ≠ [] →
      saveDraft env text w =
        storeSetW (storagePref ++ env.hostname ++ env.pathname) (obfuscate text) w) ∧
    (trimJS text = [] →
      saveDraft env text w =
        storeRemoveW (storagePref ++ env.hostname ++ env.pathname) w) := by
  constructor
  · intro h
    unfold saveDraft getStorageKey
    rw [if_neg]
    rintro (hc | hc)
    · exact h (by rw [hc]; rfl)
    · exact h hc
  · intro h
    unfold saveDraft getStorageKey
    rw [if_pos (Or.inr h)]

/-- C3 witness: saving the two-character text h i stores its obfuscation
under the chatgpt key. -/
theorem c3_save_semantics_witness :
    trimJS [104, 105] ≠ [] ∧
    saveDraft envHi [104, 105] w0 =
      storeSetW (storagePref ++ envHi.hostname ++ envHi.pathname)
        (obfuscate [104, 105]) w0 :=
  ⟨by decide, (c3_save_semantics envHi [104, 105] w0).1 (by decide)⟩

/-- C4: on Enter without shift the keydown handler, in one run, sets the
submission guard, cancels the pending debounce timer, issues exactly one
remove of the current key (updating the store accordingly), and schedules
the guard release 2000 ms ahead. -/
theorem c4_submit_key (env : Env) (e : KeyEvent) (w : World)
    (hk : e.key = enterStr) (hs : e.shiftKey = false) :
    (handleKeydown env e w).st.isSubmitting = true ∧
    (handleKeydown env e w).timers =
      (clearTimeoutW w.st.typingTimer w).timers ++
        [⟨w.nextId, w.now + 2000, .guardRelease⟩] ∧
    (handleKeydown env e w).ops =
      w.ops ++ [.remove (storagePref ++ env.hostname ++ env.pathname)] ∧
    (handleKeydown env e w).store =
      removeA w.store (storagePref ++ env.hostname ++ env.pathname) := by
  unfold handleKeydown handleSendSuccess storeRemoveW setTimeoutW clearTimeoutW getStorageKey
  rw [if_pos ⟨hk, hs⟩]
  cases h : w.st.typingTimer <;> simp [h, GUARD_MS]

/-- C4 witness: pressing Enter in the fixture world with a pending save
cancels it, removes the record and schedules the guard release. -/
theorem c4_submit_key_witness :
    (handleKeydown envHi ⟨enterStr, false⟩ wPend).st.isSubmitting = true ∧
    (handleKeydown envHi ⟨enterStr, false⟩ wPend).timers =
      (clearTimeoutW wPend.st.typingTimer wPend).timers ++
        [⟨wPend.nextId, wPend.now + 2000, .guardRelease⟩] ∧
    (handleKeydown envHi ⟨enterStr, false⟩ wPend).ops =
      wPend.ops ++ [.remove (storagePref ++ envHi.hostname ++ envHi.pathname)] ∧
    (handleKeydown envHi ⟨enterStr, false⟩ wPend).store =
      removeA wPend.store (storagePref ++ envHi.hostname ++ envHi.pathname) :=
  c4_submit_key envHi ⟨enterStr, false⟩ wPend rfl rfl

/-- C7: a document click only schedules the settle check 500 ms ahead; the
settle check never touches the submission guard or the pending timers,
and when an adapter is bound and the surface text trims to empty it
performs exactly the submit-key clearing action. -/
theorem c7_click_heuristic (env : Env) (w : World) (a : Adapter) :
    (clickStep env w).timers = w.timers ++ [⟨w.nextId, w.now + 500, .clickSettle⟩] ∧
    (runTask env .clickSettle w).st.isSubmitting = w.st.isSubmitting ∧
    (runTask env .clickSettle w).timers = w.timers ∧
    (w.st.adapter = some a → trimJS (getValue env a) = [] →
      runTask env .clickSettle w = handleSendSuccess env w) := by
  refine ⟨by simp [clickStep, setTimeoutW, CLICK_MS], ?_, ?_, ?_⟩
  · unfold runTask
    cases w.st.adapter
    · rfl
    · simp only
      split
      · simp [handleSendSuccess, storeRemoveW]
      · rfl
  · unfold runTask
    cases w.st.adapter
    · rfl
    · simp only
      split
      · simp [handleSendSuccess, storeRemoveW]
      · rfl
  · intro ha ht
    unfold runTask
    rw [ha]
    simp only
    rw [if_pos (Or.inr ht)]

/-- C7 witness: a settle check over an empty tracked textarea removes the
record like the submit path and leaves guard and timers alone. -/
theorem c7_click_heuristic_witness :
    wTrack.st.adapter = some ⟨1, .textArea⟩ ∧
    trimJS (getValue envEmpty ⟨1, .textArea⟩) = [] ∧
    runTask envEmpty .clickSettle wTrack = handleSendSuccess envEmpty wTrack :=
  ⟨rfl, by decide,
    (c7_click_heuristic envEmpty wTrack ⟨1, .textArea⟩).2.2.2 rfl (by decide)⟩

/-- C8: a detected URL change only nulls the tracked element — store
contents and storage-call log are untouched — and a subsequent mutation
pass that finds a matching element with a supported variant re-acquires
it and runs restoration against the new location's key. -/
theorem c8_navigation (env env2 : Env) (w : World) (sel : JSString) (box : Nat)
    (k : AdapterKind) (hn : env.href ≠ w.st.lastUrl) :
    (urlStep env w).st.currentInput = none ∧
    (urlStep env w).store = w.store ∧
    (urlStep env w).ops = w.ops ∧
    (lookupA selectors env2.hostname = some sel →
     env2.query sel = some box →
     createAdapter (env2.info box) = some k →
     (mutationStep env2 (urlStep env w)).st.currentInput = some box ∧
     (mutationStep env2 (urlStep env w)).ops =
       w.ops ++ [.get (storagePref ++ env2.hostname ++ env2.pathname)]) := by
  have hw : urlStep env w =
      { w with st := { w.st with lastUrl := env.href, currentInput := none } } := by
    unfold urlStep
    rw [if_pos hn]
  refine ⟨by rw [hw], by rw [hw], by rw [hw], ?_⟩
  intro h1 h2 h3
  rw [hw]
  unfold mutationStep
  simp only [h1, h2, h3, Option.map]
  rw [if_neg (by simp)]
  simp [restoreDraft_frame, getStorageKey]

/-- C8 witness: navigating from the fixture page and then observing the
route-scoped element 2 re-acquires it and reads the new path's key. -/
theorem c8_navigation_witness :
    envRoute2.href ≠ wTrack.st.lastUrl ∧
    lookupA selectors envRoute2.hostname = some selChatgpt ∧
    envRoute2.query selChatgpt = some 2 ∧
    createAdapter (envRoute2.info 2) = some .textArea ∧
    (mutationStep envRoute2 (urlStep envRoute2 wTrack)).st.currentInput = some 2 ∧
    (mutationStep envRoute2 (urlStep envRoute2 wTrack)).ops =
      wTrack.ops ++ [.get (storagePref ++ envRoute2.hostname ++ envRoute2.pathname)] :=
  ⟨by decide, rfl, rfl, rfl,
    (c8_navigation envRoute2 envRoute2 wTrack selChatgpt 2 .textArea (by decide)).2.2.2
      rfl rfl rfl⟩

/-- C5 counterexample: a surface change with successful resolution does
not generally land in TRACKING. From the guarded fixture the new adapter
is bound but the submission guard stays active, and from the
pending-save fixture the debounce timer stays armed. -/
theorem c5_counterexample :
    (mutationStep envRoute2 wGuard).st.adapter = some ⟨2, .textArea⟩ ∧
    (mutationStep envRoute2 wGuard).st.isSubmitting = true ∧
    (mutationStep envRoute2 wPend).st.adapter = some ⟨2, .textArea⟩ ∧
    (mutationStep envRoute2 wPend).timers = wPend.timers ∧
    wPend.timers = [⟨0, 777, .debounce [120]⟩] := by
  decide

/-- C5 amended: a surface-change event with successful resolution binds
the new adapter, replaces the tracked element, triggers an immediate
restoration attempt against the current key, and registers the new
listeners — but it leaves the submission guard unchanged (and does not
cancel a pending debounce timer), so the controller ends in TRACKING
only if the guard was already off and no save was pending. -/
theorem c5_amended (env : Env) (w : World) (sel : JSString) (box : Nat)
    (k : AdapterKind)
    (h1 : lookupA selectors env.hostname = some sel)
    (h2 : env.query sel = some box)
    (h3 : w.st.currentInput ≠ some box)
    (h4 : createAdapter (env.info box) = some k) :
    (mutationStep env w).st.currentInput = some box ∧
    (mutationStep env w).st.adapter = some ⟨box, k⟩ ∧
    (mutationStep env w).st.isSubmitting = w.st.isSubmitting ∧
    (mutationStep env w).ops = w.ops ++ [.get (getStorageKey env)] ∧
    (mutationStep env w).st.bindings = w.st.bindings ++ [(box, .input), (box, .keydown)] := by
  unfold mutationStep
  simp only [h1, h2, h4, Option.map]
  rw [if_neg h3]
  simp [restoreDraft_frame]

/-- C5 amended witness: from the clean tracking fixture, observing the new
element 2 binds it, restores against the current key, and keeps the
guard off. -/
theorem c5_amended_witness :
    lookupA selectors envRoute2.hostname = some selChatgpt ∧
    envRoute2.query selChatgpt = some 2 ∧
    wTrack.st.currentInput ≠ some 2 ∧
    createAdapter (envRoute2.info 2) = some .textArea ∧
    (mutationStep envRoute2 wTrack).st.currentInput = some 2 ∧
    (mutationStep envRoute2 wTrack).st.adapter = some ⟨2, .textArea⟩ ∧
    (mutationStep envRoute2 wTrack).st.isSubmitting = wTrack.st.isSubmitting ∧
    (mutationStep envRoute2 wTrack).ops = wTrack.ops ++ [.get (getStorageKey envRoute2)] ∧
    (mutationStep envRoute2 wTrack).st.bindings =
      wTrack.st.bindings ++ [(2, .input), (2, .keydown)] :=
  ⟨rfl, rfl, by decide, rfl,
    c5_amended envRoute2 wTrack selChatgpt 2 .textArea rfl rfl (by decide) rfl⟩

/-- C9 counterexample: listener registrations are never detached, so after
two successful surface changes both the old and the new element carry
live bindings, and an input event on the old element still drives the
controller (here it arms a debounce timer through the current adapter). -/
theorem c9_counterexample :
    (mutationStep envRoute2 (mutationStep envEmpty w0)).st.bindings =
      [(1, .input), (1, .keydown), (2, .input), (2, .keydown)] ∧
    (mutationStep envRoute2 (mutationStep envEmpty w0)).st.adapter = some ⟨2, .textArea⟩ ∧
    (dispatchInput envHi 1 (mutationStep envRoute2 (mutationStep envEmpty w0))).timers ≠
      (mutationStep envRoute2 (mutationStep envEmpty w0)).timers := by
  decide

/-- C9 amended: binding a new adapter replaces the manager's adapter and
tracked-element references, but the previous element's input and
submit-key listeners are not detached: the new registrations are
appended to the existing ones, so an event on the old element still
invokes the controller (which then acts through the current adapter).
The old bindings fall silent only once the old element no longer emits
events. -/
theorem c9_amended (env : Env) (w : World) (sel : JSString) (box : Nat)
    (k : AdapterKind)
    (h1 : lookupA selectors env.hostname = some sel)
    (h2 : env.query sel = some box)
    (h3 : w.st.currentInput ≠ some box)
    (h4 : createAdapter (env.info box) = some k) :
    (mutationStep env w).st.adapter = some ⟨box, k⟩ ∧
    (mutationStep env w).st.bindings =
      w.st.bindings ++ [(box, .input), (box, .keydown)] := by
  unfold mutationStep
  simp only [h1, h2, h4, Option.map]
  rw [if_neg h3]
  simp [restoreDraft_frame]

/-- C9 amended witness: the second surface change keeps element 1's
bindings while adding element 2's. -/
theorem c9_amended_witness :
    lookupA selectors envRoute2.hostname = some selChatgpt ∧
    envRoute2.query selChatgpt = some 2 ∧
    (mutationStep envEmpty w0).st.currentInput ≠ some 2 ∧
    createAdapter (envRoute2.info 2) = some .textArea ∧
    (mutationStep envRoute2 (mutationStep envEmpty w0)).st.adapter = some ⟨2, .textArea⟩ ∧
    (mutationStep envRoute2 (mutationStep envEmpty w0)).st.bindings =
      (mutationStep envEmpty w0).st.bindings ++ [(2, .input), (2, .keydown)] :=
  ⟨rfl, rfl, by decide, rfl,
    c9_amended envRoute2 (mutationStep envEmpty w0) selChatgpt 2 .textArea rfl rfl
      (by decide) rfl⟩

/-! ## Event-loop invariants for the submission guard -/

theorem pickNext_mem : ∀ {ts : List Timer} {t : Timer}, pickNext ts = some t → t ∈ ts := by
  intro ts
  induction ts with
  | nil => intro t h; cases h
  | cons a ts ih =>
    intro t h
    simp only [pickNext] at h
    cases hp : pickNext ts with
    | none =>
      rw [hp] at h
      injection h with h
      exact h ▸ List.mem_cons_self a ts
    | some u =>
      rw [hp] at h
      by_cases he : earlier u a = true
      · simp only [he, if_true] at h
        injection h with h
        exact h ▸ List.mem_cons_of_mem a (ih hp)
      · simp only [he, Bool.false_eq_true, if_false] at h
        injection h with h
        exact h ▸ List.mem_cons_self a ts

theorem setsOf_append (l1 l2 : List StoreOp) :
    setsOf (l1 ++ l2) = setsOf l1 ++ setsOf l2 := by
  simp [setsOf, List.filter_append]

theorem runTask_nondebounce (env : Env) (t : Task) (w : World)
    (h : isDebounceT t = false) :
    (runTask env t w).timers = w.timers ∧
    setsOf (runTask env t w).ops = setsOf w.ops := by
  cases t with
  | debounce text => cases h
  | guardRelease => exact ⟨rfl, rfl⟩
  | clickSettle =>
    unfold runTask
    cases w.st.adapter
    · exact ⟨rfl, rfl⟩
    · simp only
      split
      · simp [handleSendSuccess, storeRemoveW, setsOf_append, setsOf, isSetOp]
      · exact ⟨rfl, rfl⟩

theorem stepW_preserve (env : Env) (w : World)
    (hnd : ∀ t ∈ w.timers, isDebounceT t.task = false) :
    setsOf (stepW env w).ops = setsOf w.ops ∧
    ∀ t ∈ (stepW env w).timers, isDebounceT t.task = false := by
  unfold stepW
  cases hp : pickNext w.timers with
  | none => exact ⟨rfl, hnd⟩
  | some t =>
    have ht := hnd t (pickNext_mem hp)
    have h2 := runTask_nondebounce env t.task
      { w with timers := w.timers.filter (fun u => u.id ≠ t.id), now := max w.now t.fireAt } ht
    refine ⟨h2.2, ?_⟩
    intro u hu
    rw [h2.1] at hu
    simp only [List.mem_filter] at hu
    exact hnd u hu.1

theorem runW_preserve (env : Env) (n : Nat) (w : World)
    (hnd : ∀ t ∈ w.timers, isDebounceT t.task = false) :
    setsOf (runW env n w).ops = setsOf w.ops := by
  induction n generalizing w with
  | zero => rfl
  | succ n ih =>
    have h := stepW_preserve env w hnd
    simp only [runW]
    exact (ih (stepW env w) h.2).trans h.1

theorem clearTimeoutW_st (i : Option Nat) (w : World) : (clearTimeoutW i w).st = w.st := by
  cases i <;> rfl

theorem clearTimeoutW_nextId (i : Option Nat) (w : World) :
    (clearTimeoutW i w).nextId = w.nextId := by
  cases i <;> rfl

theorem clearTimeoutW_mem (i : Option Nat) (w : World) (t : Timer)
    (h : t ∈ (clearTimeoutW i w).timers) :
    t ∈ w.timers ∧ ∀ tid, i = some tid → t.id ≠ tid := by
  cases i with
  | none => exact ⟨h, fun tid hh => nomatch hh⟩
  | some tid0 =>
    simp only [clearTimeoutW, List.mem_filter] at h
    refine ⟨h.1, ?_⟩
    intro tid hh
    injection hh with hh
    subst hh
    simpa using h.2

theorem handleInput_armed (env : Env) (w : World) (hg : w.st.isSubmitting = false) :
    ∀ t ∈ (handleInput env w).timers,
      t ∈ w.timers ∨ (handleInput env w).st.typingTimer = some t.id := by
  unfold handleInput
  rw [hg]
  simp only [Bool.false_eq_true, if_false, clearTimeoutW_st]
  cases hca : w.st.adapter with
  | none =>
    intro t htm
    exact Or.inl (clearTimeoutW_mem _ _ _ htm).1
  | some a =>
    simp only [setTimeoutW]
    intro t htm
    simp only [List.mem_append, List.mem_singleton] at htm
    rcases htm with htm | htm
    · exact Or.inl (clearTimeoutW_mem _ _ _ htm).1
    · right
      rw [htm]

theorem keydown_cancels_armed_save (env : Env) (w : World)
    (hg : w.st.isSubmitting = false)
    (hnd : ∀ t ∈ w.timers, isDebounceT t.task = false) :
    ∀ t ∈ (handleKeydown env ⟨enterStr, false⟩ (handleInput env w)).timers,
      isDebounceT t.task = false := by
  have harmed := handleInput_armed env w hg
  unfold handleKeydown
  rw [if_pos ⟨rfl, rfl⟩]
  simp only [handleSendSuccess, storeRemoveW, setTimeoutW]
  intro t htm
  simp only [List.mem_append, List.mem_singleton] at htm
  rcases htm with htm | htm
  · have hc := clearTimeoutW_mem _ _ _ htm
    rcases harmed t hc.1 with hmem | hid
    · exact hnd t hmem
    · exfalso
      exact hc.2 t.id hid rfl
  · rw [htm]
    rfl

/-- C1: a debounce-timer firing under an active submission guard performs
no store operation at all (the world is unchanged); and a save armed by
input typed immediately before an Enter keypress never executes — the
keydown cancels it, so however long the event loop subsequently runs
(in particular throughout the 2000 ms guard window) no set call is ever
issued beyond those already logged. -/
theorem c1_guard_suppresses_saves (env : Env) (w : World) (text : JSString) (n : Nat) :
    (w.st.isSubmitting = true → runTask env (.debounce text) w = w) ∧
    (w.st.isSubmitting = false →
     (∀ t ∈ w.timers, isDebounceT t.task = false) →
     setsOf ((runW env n (handleKeydown env ⟨enterStr, false⟩ (handleInput env w))).ops) =
       setsOf ((handleKeydown env ⟨enterStr, false⟩ (handleInput env w)).ops)) := by
  constructor
  · intro h
    unfold runTask
    rw [h]
    simp
  · intro hg hnd
    exact runW_preserve env n _ (keydown_cancels_armed_save env w hg hnd)

/-- C1 witness: in the tracking fixture, typing then pressing Enter leaves
an event loop run of six steps with no set call, and a debounce firing in
the guarded fixture changes nothing. -/
theorem c1_guard_suppresses_saves_witness :
    (wGuard.st.isSubmitting = true ∧
      runTask envHi (.debounce [104]) wGuard = wGuard) ∧
    (wTrack.st.isSubmitting = false ∧
      (∀ t ∈ wTrack.timers, isDebounceT t.task = false) ∧
      setsOf ((runW envHi 6 (handleKeydown envHi ⟨enterStr, false⟩
          (handleInput envHi wTrack))).ops) =
        setsOf ((handleKeydown envHi ⟨enterStr, false⟩ (handleInput envHi wTrack)).ops)) :=
  ⟨⟨rfl, (c1_guard_suppresses_saves envHi wGuard [104] 6).1 rfl⟩,
    ⟨rfl, by decide,
      (c1_guard_suppresses_saves envHi wTrack [104] 6).2 rfl (by decide)⟩⟩

/-! ## Round trip of the obfuscation pipeline -/

theorem hex_triple : ∀ n < 16,
    hexVal (hexUDigit n) = n ∧ isHexDigit (hexUDigit n) = true ∧ hexUDigit n ≠ 117 := by
  decide

theorem unescape_percentByte (b : Nat) (hb : b < 256) (R : List Nat) :
    unescape (percentByte b ++ R) = b :: unescape R := by
  have h1 := hex_triple (b / 16) (by omega)
  have h2 := hex_triple (b % 16) (by omega)
  rcases R with _ | ⟨r1, _ | ⟨r2, _ | ⟨r3, R'⟩⟩⟩ <;>
    · simp [percentByte, unescape, h1.1, h1.2.1, h1.2.2, h2.1, h2.2.1]
      omega

theorem isUriUnreserved_facts (c : Nat) (h : isUriUnreserved c = true) :
    c ≠ 37 ∧ c < 128 := by
  unfold isUriUnreserved at h
  simp only [decide_eq_true_eq] at h
  omega

theorem utf8Char_ascii (c : Nat) (h : c < 128) : utf8Char c = [c] := by
  unfold utf8Char
  rw [if_pos h]

theorem unescape_encChar (c : Nat) (hc : c < 1114112) (R : List Nat) :
    unescape (encChar c ++ R) = utf8Char c ++ unescape R := by
  by_cases hu : isUriUnreserved c = true
  · have hf := isUriUnreserved_facts c hu
    unfold encChar
    rw [if_pos hu, utf8Char_ascii c hf.2]
    simp only [List.singleton_append]
    rw [unescape.eq_def]
    simp [hf.1]
  · unfold encChar
    rw [if_neg hu]
    rcases Nat.lt_or_ge c 128 with h1 | h1
    · rw [utf8Char_ascii c h1]
      exact unescape_percentByte c (by omega) R
    · rcases Nat.lt_or_ge c 2048 with h2 | h2
      · have hU : utf8Char c = [192 + c / 64, 128 + c % 64] := by
          unfold utf8Char
          rw [if_neg (by omega), if_pos h2]
        rw [hU]
        simp only [List.append_assoc, List.cons_append, List.nil_append]
        rw [unescape_percentByte _ (by omega), unescape_percentByte _ (by omega)]
      · rcases Nat.lt_or_ge c 65536 with h3 | h3
        · have hU : utf8Char c = [224 + c / 4096, 128 + c / 64 % 64, 128 + c % 64] := by
            unfold utf8Char
            rw [if_neg (by omega), if_neg (by omega), if_pos h3]
          rw [hU]
          simp only [List.append_assoc, List.cons_append, List.nil_append]
          rw [unescape_percentByte _ (by omega), unescape_percentByte _ (by omega),
            unescape_percentByte _ (by omega)]
        · have hU : utf8Char c =
              [240 + c / 262144, 128 + c / 4096 % 64, 128 + c / 64 % 64, 128 + c % 64] := by
            unfold utf8Char
            rw [if_neg (by omega), if_neg (by omega), if_neg (by omega)]
          rw [hU]
          simp only [List.append_assoc, List.cons_append, List.nil_append]
          rw [unescape_percentByte _ (by omega), unescape_percentByte _ (by omega),
            unescape_percentByte _ (by omega), unescape_percentByte _ (by omega)]

theorem unescape_encStr (T : JSString) (h : ∀ c ∈ T, isScalarB c = true) :
    unescape (encStr T) = utf8Str T := by
  induction T with
  | nil => simp [encStr, utf8Str, unescape]
  | cons c T ih =>
    have hc : c < 1114112 := by
      have := h c (List.mem_cons_self c T)
      unfold isScalarB at this
      simp only [decide_eq_true_eq] at this
      omega
    simp only [encStr, utf8Str]
    rw [unescape_encChar c hc (encStr T),
      ih (fun x hx => h x (List.mem_cons_of_mem c hx))]

theorem utf8Char_lt_256 (c : Nat) (hc : c < 1114112) : ∀ b ∈ utf8Char c, b < 256 := by
  unfold utf8Char
  split_ifs <;> intro b hb <;> simp only [List.mem_cons, List.mem_singleton,
    List.not_mem_nil, or_false] at hb <;> omega

theorem utf8Str_lt_256 (T : JSString) (h : ∀ c ∈ T, isScalarB c = true) :
    ∀ b ∈ utf8Str T, b < 256 := by
  induction T with
  | nil => intro b hb; cases hb
  | cons c T ih =>
    intro b hb
    simp only [utf8Str, List.mem_append] at hb
    rcases hb with hb | hb
    · have hc : c < 1114112 := by
        have := h c (List.mem_cons_self c T)
        unfold isScalarB at this
        simp only [decide_eq_true_eq] at this
        omega
      exact utf8Char_lt_256 c hc b hb
    · exact ih (fun x hx => h x (List.mem_cons_of_mem c hx)) b hb

theorem b64Char_props (n : Nat) : isAsciiWS (b64Char n) = false ∧ b64Char n ≠ 61 := by
  unfold b64Char isAsciiWS
  split_ifs <;> simp <;> omega

theorem b64Val_b64Char : ∀ n < 64, b64Val (b64Char n) = some n := by decide

theorem btoaEncode_eq (bs : List Nat) :
    btoaEncode bs = (sixVals bs).map b64Char ++ padList bs := by
  induction bs using btoaEncode.induct with
  | case1 => rfl
  | case2 b1 => rfl
  | case3 b1 b2 => rfl
  | case4 b1 b2 b3 rest ih => simp [btoaEncode, sixVals, padList, ih]

theorem padList_mem (bs : List Nat) : ∀ x ∈ padList bs, x = 61 := by
  induction bs using padList.induct with
  | case1 => intro x hx; cases hx
  | case2 b1 => intro x hx; simpa [padList] using hx
  | case3 b1 b2 => intro x hx; simpa [padList] using hx
  | case4 b1 b2 b3 rest ih => exact ih

theorem btoaEncode_no_ws (bs : List Nat) : ∀ x ∈ btoaEncode bs, isAsciiWS x = false := by
  intro x hx
  rw [btoaEncode_eq] at hx
  rcases List.mem_append.1 hx with hx | hx
  · rcases List.mem_map.1 hx with ⟨n, _, rfl⟩
    exact (b64Char_props n).1
  · rw [padList_mem bs x hx]
    rfl

theorem btoaEncode_len (bs : List Nat) : (btoaEncode bs).length % 4 = 0 := by
  induction bs using btoaEncode.induct with
  | case1 => rfl
  | case2 b1 => simp [btoaEncode]
  | case3 b1 b2 => simp [btoaEncode]
  | case4 b1 b2 b3 rest ih => simp [btoaEncode, List.length_cons]; omega

theorem dropEq_append (n : Nat) (A B : List Nat) (h : n ≤ A.length) :
    dropEq n (A ++ B) = dropEq n A ++ B := by
  induction n generalizing A with
  | zero => cases A <;> cases B <;> simp [dropEq]
  | succ n ih =>
    cases A with
    | nil => simp at h
    | cons a A2 =>
      simp only [List.cons_append, dropEq]
      split
      · exact ih A2 (by simpa using h)
      · rfl

theorem stripPad_append (C Y : List Nat) (hY : 2 ≤ Y.length) :
    stripPad (C ++ Y) = C ++ stripPad Y := by
  unfold stripPad
  rw [List.reverse_append, dropEq_append 2 Y.reverse C.reverse (by simpa using hY),
    List.reverse_append]
  simp

theorem stripPad_no61 (X : List Nat) (h : ∀ x ∈ X, x ≠ 61) : stripPad X = X := by
  unfold stripPad
  have hd : dropEq 2 X.reverse = X.reverse := by
    cases hX : X.reverse with
    | nil => rfl
    | cons a l =>
      have ha : a ≠ 61 := by
        refine h a ?_
        rw [← List.mem_reverse, hX]
        simp
      simp [dropEq, ha]
  rw [hd, List.reverse_reverse]

theorem map_b64Char_no61 (vs : List Nat) : ∀ x ∈ vs.map b64Char, x ≠ 61 := by
  intro x hx
  rcases List.mem_map.1 hx with ⟨n, _, rfl⟩
  exact (b64Char_props n).2

theorem btoaEncode_len_ge (bs : List Nat) (h : bs ≠ []) : 2 ≤ (btoaEncode bs).length := by
  induction bs using btoaEncode.induct with
  | case1 => exact absurd rfl h
  | case2 b1 => simp [btoaEncode]
  | case3 b1 b2 => simp [btoaEncode]
  | case4 b1 b2 b3 rest ih => simp [btoaEncode]

theorem stripPad_btoaEncode (bs : List Nat) :
    stripPad (btoaEncode bs) = (sixVals bs).map b64Char := by
  induction bs using btoaEncode.induct with
  | case1 => rfl
  | case2 b1 =>
    show stripPad (((sixVals [b1]).map b64Char) ++ [61, 61]) = (sixVals [b1]).map b64Char
    rw [stripPad_append _ _ (by simp)]
    have h2 : stripPad [61, 61] = [] := rfl
    rw [h2, List.append_nil]
  | case3 b1 b2 =>
    unfold stripPad
    have hrev : (btoaEncode [b1, b2]).reverse =
        61 :: b64Char (b2 % 16 * 4) ::
          [b64Char (b1 % 4 * 16 + b2 / 16), b64Char (b1 / 4)] := by
      simp [btoaEncode]
    rw [hrev]
    simp [dropEq, (b64Char_props (b2 % 16 * 4)).2, sixVals]
  | case4 b1 b2 b3 rest ih =>
    by_cases hr : rest = []
    · subst hr
      unfold stripPad
      have hrev : (btoaEncode [b1, b2, b3]).reverse =
          b64Char (b3 % 64) :: b64Char (b2 % 16 * 4 + b3 / 64) ::
            [b64Char (b1 % 4 * 16 + b2 / 16), b64Char (b1 / 4)] := by
        simp [btoaEncode]
      rw [hrev]
      simp [dropEq, (b64Char_props (b3 % 64)).2, sixVals, btoaEncode]
    · show stripPad ([b64Char (b1 / 4), b64Char (b1 % 4 * 16 + b2 / 16),
        b64Char (b2 % 16 * 4 + b3 / 64), b64Char (b3 % 64)] ++ btoaEncode rest) =
          (sixVals (b1 :: b2 :: b3 :: rest)).map b64Char
      rw [stripPad_append _ _ (btoaEncode_len_ge rest hr), ih]
      simp [sixVals]

theorem sixVals_lt_64 (bs : List Nat) (h : ∀ b ∈ bs, b < 256) :
    ∀ v ∈ sixVals bs, v < 64 := by
  induction bs using sixVals.induct with
  | case1 => intro v hv; cases hv
  | case2 b1 =>
    intro v hv
    have h1 := h b1 (by simp)
    simp [sixVals] at hv
    rcases hv with hv | hv <;> omega
  | case3 b1 b2 =>
    intro v hv
    have h1 := h b1 (by simp)
    have h2 := h b2 (by simp)
    simp [sixVals] at hv
    rcases hv with hv | hv | hv <;> omega
  | case4 b1 b2 b3 rest ih =>
    intro v hv
    have h1 := h b1 (by simp)
    have h2 := h b2 (by simp)
    have h3 := h b3 (by simp)
    simp only [sixVals, List.mem_cons] at hv
    rcases hv with hv | hv | hv | hv | hv
    · omega
    · omega
    · omega
    · omega
    · exact ih (fun b hb => h b (by simp [hb])) v hv

theorem sixVals_len_mod (bs : List Nat) : (sixVals bs).length % 4 ≠ 1 := by
  induction bs using sixVals.induct with
  | case1 => simp [sixVals]
  | case2 b1 => simp [sixVals]
  | case3 b1 b2 => simp [sixVals]
  | case4 b1 b2 b3 rest ih => simp [sixVals, List.length_cons]; omega

theorem map_b64_back (vs : List Nat) (hv : ∀ v ∈ vs, v < 64) :
    (vs.map b64Char).map (fun c => (b64Val c).getD 0) = vs := by
  rw [List.map_map]
  have : vs.map ((fun c => (b64Val c).getD 0) ∘ b64Char) = vs.map id := by
    apply List.map_congr_left
    intro a ha
    simp [Function.comp, b64Val_b64Char a (hv a ha)]
  rw [this, List.map_id]

theorem atobDecode_sixVals (bs : List Nat) (h : ∀ b ∈ bs, b < 256) :
    atobDecode (sixVals bs) = bs := by
  induction bs using sixVals.induct with
  | case1 => rfl
  | case2 b1 =>
    have h1 := h b1 (by simp)
    simp only [sixVals, atobDecode, List.cons.injEq]
    refine ⟨by omega, trivial⟩
  | case3 b1 b2 =>
    have h1 := h b1 (by simp)
    have h2 := h b2 (by simp)
    simp only [sixVals, atobDecode, List.cons.injEq]
    refine ⟨by omega, by omega, trivial⟩
  | case4 b1 b2 b3 rest ih =>
    have h1 := h b1 (by simp)
    have h2 := h b2 (by simp)
    have h3 := h b3 (by simp)
    simp only [sixVals, atobDecode, List.cons.injEq]
    refine ⟨by omega, by omega, by omega, ih (fun b hb => h b (by simp [hb]))⟩

theorem atob_btoaEncode (bs : List Nat) (h : ∀ b ∈ bs, b < 256) :
    atob (btoaEncode bs) = some bs := by
  unfold atob
  have hfil : (btoaEncode bs).filter (fun c => !isAsciiWS c) = btoaEncode bs := by
    apply List.filter_eq_self.mpr
    intro a ha
    simp [btoaEncode_no_ws bs a ha]
  rw [hfil]
  have hstrip : (if (btoaEncode bs).length % 4 = 0 then stripPad (btoaEncode bs)
      else btoaEncode bs) = (sixVals bs).map b64Char := by
    rw [if_pos (btoaEncode_len bs), stripPad_btoaEncode]
  simp only [hstrip]
  have hlen : ¬((sixVals bs).map b64Char).length % 4 = 1 := by
    rw [List.length_map]
    exact sixVals_len_mod bs
  rw [if_neg hlen]
  have hall : ((sixVals bs).map b64Char).all (fun c => (b64Val c).isSome) = true := by
    apply List.all_eq_true.mpr
    intro a ha
    rcases List.mem_map.1 ha with ⟨n, hn, rfl⟩
    rw [b64Val_b64Char n (sixVals_lt_64 bs h n hn)]
    rfl
  rw [if_pos hall, map_b64_back _ (sixVals_lt_64 bs h), atobDecode_sixVals bs h]

theorem escapeKeep_facts (c : Nat) (h : escapeKeep c = true) : c ≠ 37 ∧ c < 128 := by
  unfold escapeKeep at h
  simp only [decide_eq_true_eq] at h
  omega

theorem uriBytes_escape (bs : List Nat) (h : ∀ b ∈ bs, b < 256) :
    uriBytes (escape bs) = some bs := by
  induction bs with
  | nil => rfl
  | cons b bs ih =>
    have hb : b < 256 := h b (by simp)
    have ih2 := ih (fun x hx => h x (by simp [hx]))
    by_cases hk : escapeKeep b = true
    · have hf := escapeKeep_facts b hk
      simp only [escape, if_pos hk, List.singleton_append]
      rw [uriBytes.eq_def]
      simp only [hf.1, if_false, ite_false]
      rw [ih2, utf8Char_ascii b hf.2]
      rfl
    · have h1 := hex_triple (b / 16) (by omega)
      have h2 := hex_triple (b % 16) (by omega)
      simp only [escape, if_neg hk, if_pos hb, percentByte, List.cons_append,
        List.nil_append]
      rw [uriBytes.eq_def]
      simp [h1.1, h1.2.1, h2.1, h2.2.1, ih2]
      omega

theorem utf8DecodeChar_utf8Char (c : Nat) (hc : isScalarB c = true) (R : List Nat) :
    utf8DecodeChar (utf8Char c ++ R) = some (c, R) := by
  have hprop : c < 1114112 ∧ ¬(55296 ≤ c ∧ c < 57344) := by
    unfold isScalarB at hc
    exact of_decide_eq_true hc
  rcases hprop with ⟨hp1, hp2⟩
  rcases Nat.lt_or_ge c 128 with h1 | h1
  · rw [utf8Char_ascii c h1]
    simp only [List.singleton_append, utf8DecodeChar]
    simp [h1]
  · rcases Nat.lt_or_ge c 2048 with h2 | h2
    · have hU : utf8Char c = [192 + c / 64, 128 + c % 64] := by
        unfold utf8Char
        rw [if_neg (by omega), if_pos h2]
      rw [hU]
      simp only [List.cons_append, List.nil_append, utf8DecodeChar]
      have hcont : contB (128 + c % 64) = true := by
        unfold contB
        simp only [decide_eq_true_eq]
        omega
      have hval : (192 + c / 64 - 192) * 64 + (128 + c % 64 - 128) = c := by omega
      rw [if_neg (by omega), if_neg (by omega), if_pos (by omega : 192 + c / 64 < 224)]
      simp [hcont]
      omega
    · rcases Nat.lt_or_ge c 65536 with h3 | h3
      · have hU : utf8Char c = [224 + c / 4096, 128 + c / 64 % 64, 128 + c % 64] := by
          unfold utf8Char
          rw [if_neg (by omega), if_neg (by omega), if_pos h3]
        rw [hU]
        simp only [List.cons_append, List.nil_append, utf8DecodeChar]
        have hcont1 : contB (128 + c / 64 % 64) = true := by
          unfold contB
          simp only [decide_eq_true_eq]
          omega
        have hcont2 : contB (128 + c % 64) = true := by
          unfold contB
          simp only [decide_eq_true_eq]
          omega
        have hval : (224 + c / 4096 - 224) * 4096 + (128 + c / 64 % 64 - 128) * 64 +
            (128 + c % 64 - 128) = c := by omega
        rw [if_neg (by omega), if_neg (by omega), if_neg (by omega),
          if_pos (by omega : 224 + c / 4096 < 240)]
        simp only [hcont1, hcont2, Bool.and_self, if_true, hval]
        rw [if_pos (by omega : (2048 : Nat) ≤ c ∧ ¬(55296 ≤ c ∧ c < 57344))]
      · have hU : utf8Char c =
            [240 + c / 262144, 128 + c / 4096 % 64, 128 + c / 64 % 64, 128 + c % 64] := by
          unfold utf8Char
          rw [if_neg (by omega), if_neg (by omega), if_neg (by omega)]
        rw [hU]
        simp only [List.cons_append, List.nil_append, utf8DecodeChar]
        have hcont1 : contB (128 + c / 4096 % 64) = true := by
          unfold contB
          simp only [decide_eq_true_eq]
          omega
        have hcont2 : contB (128 + c / 64 % 64) = true := by
          unfold contB
          simp only [decide_eq_true_eq]
          omega
        have hcont3 : contB (128 + c % 64) = true := by
          unfold contB
          simp only [decide_eq_true_eq]
          omega
        have hval : (240 + c / 262144 - 240) * 262144 + (128 + c / 4096 % 64 - 128) * 4096 +
            (128 + c / 64 % 64 - 128) * 64 + (128 + c % 64 - 128) = c := by omega
        rw [if_neg (by omega), if_neg (by omega), if_neg (by omega), if_neg (by omega),
          if_pos (by omega : 240 + c / 262144 < 245)]
        simp only [hcont1, hcont2, hcont3, Bool.and_self, if_true, hval]
        rw [if_pos (by omega : (65536 : Nat) ≤ c ∧ c < 1114112)]

theorem utf8Decode_utf8Char (c : Nat) (hc : isScalarB c = true) (R : List Nat) :
    utf8Decode (utf8Char c ++ R) = (utf8Decode R).map (c :: ·) := by
  rw [utf8Decode.eq_def]
  split
  · rename_i heq
    rw [utf8DecodeChar_utf8Char c hc R] at heq
    cases heq
  · rename_i c2 rest heq
    rw [utf8DecodeChar_utf8Char c hc R] at heq
    injection heq with h2
    injection h2 with h3 h4
    rw [h3, h4]

theorem utf8Decode_utf8Str (T : JSString) (h : ∀ c ∈ T, isScalarB c = true) :
    utf8Decode (utf8Str T) = some T := by
  induction T with
  | nil =>
    show utf8Decode [] = some []
    rw [utf8Decode.eq_def]
    simp [utf8DecodeChar]
  | cons c T ih =>
    simp only [utf8Str]
    rw [utf8Decode_utf8Char c (h c (List.mem_cons_self c T)),
      ih (fun x hx => h x (List.mem_cons_of_mem c hx))]
    rfl

theorem obfuscate_eq (T : JSString) (h : ∀ c ∈ T, isScalarB c = true) :
    obfuscate T = btoaEncode (utf8Str T) := by
  unfold obfuscate
  have h1 : encodeURIComponent T = some (encStr T) := by
    unfold encodeURIComponent
    rw [if_pos (List.all_eq_true.mpr h)]
  have h2 : unescape (encStr T) = utf8Str T := unescape_encStr T h
  have h3 : btoa (utf8Str T) = some (btoaEncode (utf8Str T)) := by
    unfold btoa
    rw [if_pos (List.all_eq_true.mpr
      (fun b hb => decide_eq_true (utf8Str_lt_256 T h b hb)))]
  simp [h1, h2, h3]

/-- C6 counterexample: the spec's round trip is stated as encode after
decode; it fails on the one-character string a, whose decode is empty
(atob rejects a length-1 input) and re-encodes to the empty string. -/
theorem c6_counterexample : obfuscate (deobfuscate [97]) ≠ [97] := by
  have h1 : deobfuscate [97] = [] := by
    unfold deobfuscate
    have ha : atob [97] = none := by rfl
    simp [ha]
  rw [h1]
  have h2 : obfuscate [] = [] := by
    unfold obfuscate
    have he : encodeURIComponent [] = some [] := rfl
    have hu : unescape [] = [] := by simp [unescape]
    have hb : btoa [] = some [] := rfl
    simp [he, hu, hb]
  rw [h2]
  simp

/-- C6 amended: the round trip that holds of the obfuscation pair is
decode after encode: for every string of Unicode scalar values,
deobfuscate of obfuscate returns the original string (decode of
malformed input still yields empty text rather than throwing). -/
theorem c6_roundtrip (T : JSString) (h : ∀ c ∈ T, isScalarB c = true) :
    deobfuscate (obfuscate T) = T := by
  rw [obfuscate_eq T h]
  unfold deobfuscate
  have ha : atob (btoaEncode (utf8Str T)) = some (utf8Str T) :=
    atob_btoaEncode _ (utf8Str_lt_256 T h)
  have hd : decodeURIComponent (escape (utf8Str T)) = some T := by
    unfold decodeURIComponent
    rw [uriBytes_escape _ (utf8Str_lt_256 T h)]
    simp [utf8Decode_utf8Str T h]
  simp [ha, hd]

/-- C6 amended witness: a four-character string exercising the one, two,
three and four byte UTF-8 paths round-trips through the pair. -/
theorem c6_roundtrip_witness :
    (∀ c ∈ ([104, 233, 8364, 128512] : JSString), isScalarB c = true) ∧
    deobfuscate (obfuscate [104, 233, 8364, 128512]) = [104, 233, 8364, 128512] :=
  ⟨by decide, c6_roundtrip [104, 233, 8364, 128512] (by decide)⟩

end PromptSafe
